import Mathlib

/-!
Verification of the pluggable-discovery protocol handler.

This file gives a shallow embedding of the Go sources of
`arduino/pluggable-discovery-protocol-handler` and proves properties of the
embedded definitions.

Conventions of the embedding:
* Go strings are Lean `String`s (the sources only manipulate ASCII in the
  places modelled here, so byte indexing coincides with character indexing).
* The Go map `map[string]*Port` is an association list `List (String × Port)`
  with Go-map insert (replace the binding if the key is present, otherwise
  add it) and delete.
* The injected `Discovery` implementation is modelled by the results its
  methods return: each fallible method is an `Option String` holding the
  error message it returns, `none` meaning success.  Callbacks installed by
  the server are modelled as state transformers on the server state.
* One iteration of `Server.Run`'s command loop (reading one input line) is
  the function `Server.processLine`; its output records the new session
  state, the messages written to the output stream, whether `impl.Quit()`
  was invoked, and whether `Run` returns nil.
-/

set_option autoImplicit false

namespace PluggableDiscovery

/-! ## Ports (src/port.go) -/

/-- `Port` from src/port.go.  The external `properties.Map` pointer is
modelled by its contents, an ordered list of key/value pairs (`none` is the
Go nil pointer).  Pointer identity, which only matters for `Clone`, is
modelled separately by `PortObj` below. -/
structure Port where
  address : String
  addressLabel : String
  protocol : String
  protocolLabel : String
  properties : Option (List (String × String))
  hardwareID : String
deriving DecidableEq

/-- The `address + "|" + protocol` key used by `Server.eventCallback`
(src/unnamed/part_000 line 197). -/
def portKey (p : Port) : String :=
  p.address ++ "|" ++ p.protocol

/-! ## String helpers

Go's `strings.ToUpper`, `strings.TrimSpace` and `strings.Split` are
modelled on the character list of the string (the protocol traffic handled
here is ASCII, where byte and character indexing agree); the list-based
definitions also evaluate by kernel reduction. -/

/-- Go `strings.ToUpper` (ASCII). -/
def asciiUpper (s : String) : String :=
  String.mk (s.data.map Char.toUpper)

/-- Go `strings.TrimSpace`: drop whitespace from both ends. -/
def trimSpace (s : String) : String :=
  String.mk (((s.data.dropWhile Char.isWhitespace).reverse.dropWhile
    Char.isWhitespace).reverse)

/-- The first element of Go `strings.Split(s, " ")`: the text before the
first space. -/
def firstField (s : String) : String :=
  String.mk (s.data.takeWhile (fun c => c ≠ ' '))

/-! ## Wire messages (src/message.go) -/

/-- The `message` struct of src/message.go.  Optional JSON fields keep their
Go zero values (`""`, `false`, `0`, `none`) when absent. -/
structure Message where
  eventType : String
  message : String
  error : Bool
  protocolVersion : Int
  port : Option Port
  ports : Option (List Port)
deriving DecidableEq

/-- `messageOk` of src/message.go. -/
def messageOk (event : String) : Message :=
  { eventType := event, message := "OK", error := false,
    protocolVersion := 0, port := none, ports := none }

/-- `messageError` of src/message.go. -/
def messageError (event msg : String) : Message :=
  { eventType := event, message := msg, error := true,
    protocolVersion := 0, port := none, ports := none }

/-! ## The Go map `map[string]*Port` as an association list -/

/-- Go map read `m[k]`. -/
def mapLookup : List (String × Port) → String → Option Port
  | [], _ => none
  | kv :: t, k => if kv.1 = k then some kv.2 else mapLookup t k

/-- Go map write `m[k] = v`: replace the first binding of `k`, or add one. -/
def mapInsert : List (String × Port) → String → Port → List (String × Port)
  | [], k, v => [(k, v)]
  | kv :: t, k, v => if kv.1 = k then (k, v) :: t else kv :: mapInsert t k v

/-- Go `delete(m, k)`. -/
def mapErase : List (String × Port) → String → List (String × Port)
  | [], _ => []
  | kv :: t, k => if kv.1 = k then mapErase t k else kv :: mapErase t k

/-- The values of the map, as iterated by `Server.list`
(src/unnamed/part_000 lines 223-226); iteration order is unspecified in Go,
the claims proved below only use the set of values. -/
def mapValues (m : List (String × Port)) : List Port :=
  m.map (fun kv => kv.2)

/-! ## HELLO payload parsing (src/unnamed/part_000 lines 152-163) -/

/-- The anchored regular expression match of
`^(\d+) "([^"]+)"$` against the HELLO payload: the payload must be a
nonempty digit string, a space, and a double-quoted nonempty string without
double quotes in it.  Returns the two capture groups. -/
def parseHello (s : String) : Option (String × String) :=
  let cs := s.data
  let ds := cs.takeWhile Char.isDigit
  if ds = [] then none
  else
    match cs.dropWhile Char.isDigit with
    | ' ' :: '"' :: rest =>
      let ag := rest.takeWhile (fun c => c ≠ '"')
      if ag = [] then none
      else
        match rest.dropWhile (fun c => c ≠ '"') with
        | ['"'] => some (String.mk ds, String.mk ag)
        | _ => none
    | _ => none

/-- The numeric value of a digit string. -/
def digitsToNat (s : String) : Nat :=
  s.data.foldl (fun a c => 10 * a + (c.toNat - 48)) 0

/-- Go `strconv.ParseInt(s, 10, 64)` restricted to the strings produced by
the first capture group of the HELLO regular expression (nonempty digit
strings): it succeeds exactly when the value fits in a signed 64-bit
integer, and fails with an out-of-range error otherwise. -/
def parseInt64 (s : String) : Option Int :=
  if s.length ≠ 0 ∧ s.data.all Char.isDigit then
    if digitsToNat s ≤ 9223372036854775807 then some (Int.ofNat (digitsToNat s))
    else none
  else none

/-! ## Server session state (src/unnamed/part_000 lines 77-97) -/

/-- The session-state fields of `Server` (the `impl`, `output` and
`outputMutex` fields are modelled separately). -/
structure ServerState where
  userAgent : String
  reqProtocolVersion : Int
  initialized : Bool
  started : Bool
  syncStarted : Bool
  cachedPorts : List (String × Port)
  cachedErr : String
deriving DecidableEq

/-- The state built by `NewServer` (Go zero values). -/
def ServerState.initial : ServerState :=
  { userAgent := "", reqProtocolVersion := 0, initialized := false,
    started := false, syncStarted := false, cachedPorts := [], cachedErr := "" }

/-- The injected `Discovery` implementation, modelled by the results of its
fallible methods (`none` = success, `some e` = the error message whose
`Error()` is `e`).  `startSyncErr` is the result of `impl.StartSync`, which
the server invokes both for START (polling mode) and START_SYNC. -/
structure DiscoveryImpl where
  helloErr : Option String
  startSyncErr : Option String
  stopErr : Option String
deriving DecidableEq

/-- An implementation whose methods all succeed. -/
def DiscoveryImpl.ok : DiscoveryImpl :=
  { helloErr := none, startSyncErr := none, stopErr := none }

namespace Server

/-- The polling-mode event callback `Server.eventCallback`
(src/unnamed/part_000 lines 196-204): `add` inserts into `cachedPorts`
keyed by `address|protocol`, `remove` deletes that key. -/
def evApply (m : List (String × Port)) (event : String) (port : Port) :
    List (String × Port) :=
  let id := port.address ++ "|" ++ port.protocol
  let m1 := if event = "add" then mapInsert m id port else m
  if event = "remove" then mapErase m1 id else m1

/-- `Server.eventCallback` as a transformer of the session state: it only
mutates `cachedPorts`. -/
def eventCallback (s : ServerState) (event : String) (port : Port) : ServerState :=
  { s with cachedPorts := evApply s.cachedPorts event port }

/-- `Server.errorCallback` (src/unnamed/part_000 lines 206-208). -/
def errorCallback (s : ServerState) (msg : String) : ServerState :=
  { s with cachedErr := msg }

/-- `Server.hello` (src/unnamed/part_000 lines 147-175).  Returns the new
state and the messages sent. -/
def hello (impl : DiscoveryImpl) (s : ServerState) (cmd : String) :
    ServerState × List Message :=
  if s.initialized then (s, [messageError "hello" "HELLO already called"])
  else
    match parseHello cmd with
    | none => (s, [messageError "hello" "Invalid HELLO command"])
    | some (ver, agent) =>
      let s1 := { s with userAgent := agent }
      match parseInt64 ver with
      | none => (s1, [messageError "hello" ("Invalid protocol version: " ++ agent)])
      | some v =>
        let s2 := { s1 with reqProtocolVersion := v }
        match impl.helloErr with
        | some e => (s2, [messageError "hello" e])
        | none =>
          ({ s2 with initialized := true },
           [{ eventType := "hello", message := "OK", error := false,
              protocolVersion := 1, port := none, ports := none }])

/-- `Server.start` (src/unnamed/part_000 lines 177-194). -/
def start (impl : DiscoveryImpl) (s : ServerState) : ServerState × List Message :=
  if s.started then (s, [messageError "start" "Discovery already STARTed"])
  else if s.syncStarted then
    (s, [messageError "start" "Discovery already START_SYNCed, cannot START"])
  else
    let s1 := { s with cachedPorts := [], cachedErr := "" }
    match impl.startSyncErr with
    | some e => (s1, [messageError "start" ("Cannot START: " ++ e)])
    | none => ({ s1 with started := true }, [messageOk "start"])

/-- `Server.list` (src/unnamed/part_000 lines 210-231). -/
def list (s : ServerState) : ServerState × List Message :=
  if s.started = false then (s, [messageError "list" "Discovery not STARTed"])
  else if s.syncStarted then
    (s, [messageError "list" "discovery already START_SYNCed, LIST not allowed"])
  else if s.cachedErr ≠ "" then (s, [messageError "list" s.cachedErr])
  else
    (s, [{ eventType := "list", message := "", error := false,
           protocolVersion := 0, port := none,
           ports := some (mapValues s.cachedPorts) }])

/-- `Server.startSync` (src/unnamed/part_000 lines 233-248).  In the model
the sync-mode callbacks are not invoked during the command itself, so only
the result of `impl.StartSync` is relevant. -/
def startSync (impl : DiscoveryImpl) (s : ServerState) : ServerState × List Message :=
  if s.syncStarted then (s, [messageError "start_sync" "Discovery already START_SYNCed"])
  else if s.started then
    (s, [messageError "start_sync" "Discovery already STARTed, cannot START_SYNC"])
  else
    match impl.startSyncErr with
    | some e => (s, [messageError "start_sync" ("Cannot START_SYNC: " ++ e)])
    | none => ({ s with syncStarted := true }, [messageOk "start_sync"])

/-- `Server.stop` (src/unnamed/part_000 lines 250-264). -/
def stop (impl : DiscoveryImpl) (s : ServerState) : ServerState × List Message :=
  if s.syncStarted = false ∧ s.started = false then
    (s, [messageError "stop" "Discovery already STOPped"])
  else
    match impl.stopErr with
    | some e => (s, [messageError "stop" ("Cannot STOP: " ++ e)])
    | none => ({ s with started := false, syncStarted := false }, [messageOk "stop"])

/-- The command token extracted by `Server.Run` (src/unnamed/part_000 lines
113-115): trim the line, split on single spaces, uppercase the first
token. -/
def parsedCmd (line : String) : String :=
  asciiUpper (firstField (trimSpace line))

/-- The HELLO payload extracted by `Server.Run` (src/unnamed/part_000 lines
124-128): the trimmed line from byte 6 on, or `""` when shorter than 7
bytes. -/
def helloPayload (line : String) : String :=
  let fullCmd := trimSpace line
  if fullCmd.length < 7 then "" else String.mk (fullCmd.data.drop 6)

/-- The outcome of processing one input line in `Server.Run`'s loop. -/
structure StepOut where
  state : ServerState
  sent : List Message
  quitCalled : Bool
  terminated : Bool
deriving DecidableEq

/-- One iteration of `Server.Run`'s command loop (src/unnamed/part_000
lines 104-145) on a successfully read line: parse the command, apply the
pre-HELLO guard, dispatch.  `terminated = true` means `Run` returns nil
(the QUIT path). -/
def processLine (impl : DiscoveryImpl) (s : ServerState) (line : String) : StepOut :=
  let cmd := parsedCmd line
  if s.initialized = false ∧ cmd ≠ "HELLO" ∧ cmd ≠ "QUIT" then
    { state := s,
      sent := [messageError "command_error"
        ("First command must be HELLO, but got '" ++ cmd ++ "'")],
      quitCalled := false, terminated := false }
  else if cmd = "HELLO" then
    let r := hello impl s (helloPayload line)
    { state := r.1, sent := r.2, quitCalled := false, terminated := false }
  else if cmd = "START" then
    let r := start impl s
    { state := r.1, sent := r.2, quitCalled := false, terminated := false }
  else if cmd = "LIST" then
    let r := list s
    { state := r.1, sent := r.2, quitCalled := false, terminated := false }
  else if cmd = "START_SYNC" then
    let r := startSync impl s
    { state := r.1, sent := r.2, quitCalled := false, terminated := false }
  else if cmd = "STOP" then
    let r := stop impl s
    { state := r.1, sent := r.2, quitCalled := false, terminated := false }
  else if cmd = "QUIT" then
    { state := s, sent := [messageOk "quit"], quitCalled := true, terminated := true }
  else
    { state := s,
      sent := [messageError "command_error" ("Command " ++ cmd ++ " not supported")],
      quitCalled := false, terminated := false }

end Server

/-! ## `Server.send` (src/unnamed/part_000 lines 277-292) -/

/-- The bytes handed to `output.Write`: the serialized JSON document with
the trailing newline appended (`data = append(data, '\n')`). -/
def sendData (json : String) : String := json ++ "\n"

/-- Whether `Server.send` returns normally or aborts the session. -/
inductive SendOutcome where
  | completed
  | panicked
deriving DecidableEq

/-- The write check of `Server.send`: after `n, err := d.output.Write(data)`
the server panics when `n != len(data) || err != nil`. -/
def sendOutcome (dataLen n : Nat) (writeErr : Option String) : SendOutcome :=
  if n ≠ dataLen ∨ writeErr.isSome then SendOutcome.panicked else SendOutcome.completed

/-! ## Port cloning with pointer identity (src/port.go lines 46-55)

`Port.Properties` is a Go pointer to an external ordered map.  To state
independence of the clone's map from the original's, pointers are modelled
as indices into a heap of map contents. -/

/-- The heap of `properties.Map` objects: a Go `*properties.Map` is an
index into this list. -/
abbrev PropHeap := List (List (String × String))

/-- A `Port` struct value whose `Properties` field is a pointer
(`none` is the nil pointer). -/
structure PortObj where
  address : String
  addressLabel : String
  protocol : String
  protocolLabel : String
  properties : Option Nat
  hardwareID : String
deriving DecidableEq

/-- `Port.Equals` (src/port.go lines 34-36): compare address and protocol
only. -/
def PortObj.equals (p o : PortObj) : Bool :=
  p.address == o.address && p.protocol == o.protocol

/-- Allocate a fresh map object on the heap, returning the new heap and the
pointer to the object. -/
def heapAlloc (h : PropHeap) (m : List (String × String)) : PropHeap × Nat :=
  (h ++ [m], h.length)

/-- Dereference a map pointer. -/
def heapGet (h : PropHeap) (r : Nat) : List (String × String) :=
  h.getD r []

/-- Ordered-map insertion: replace the binding if the key is present,
otherwise append it (the external map preserves insertion order). -/
def propSet : List (String × String) → String → String → List (String × String)
  | [], k, v => [(k, v)]
  | kv :: t, k, v => if kv.1 = k then (k, v) :: t else kv :: propSet t k v

/-- Mutate the map object a pointer refers to (a `Set` on the external
ordered map through the pointer). -/
def heapSet (h : PropHeap) (r : Nat) (k v : String) : PropHeap :=
  h.set r (propSet (heapGet h r) k v)

/-- The map contents a port observes through its `Properties` pointer. -/
def readProps (h : PropHeap) (p : PortObj) : Option (List (String × String)) :=
  p.properties.map (fun r => heapGet h r)

/-- `Port.Clone` (src/port.go lines 46-55): nil receiver yields nil;
otherwise `res := *p` copies the struct and, when `Properties` is non-nil,
the pointer is replaced by one to a fresh copy of the contents.
Modelled from the spec: the external `properties.Map.Clone`
(`go-properties-orderedmap`, not part of this repository's sources) is
taken to produce an independent deep copy of the mapping, here a fresh heap
cell with the same contents. -/
def clonePort (h : PropHeap) : Option PortObj → PropHeap × Option PortObj
  | none => (h, none)
  | some p =>
    match p.properties with
    | none => (h, some p)
    | some r =>
      let a := heapAlloc h (heapGet h r)
      (a.1, some { p with properties := some a.2 })

/-! ## Client (src/unnamed/part_006) -/

/-- The `discoveryMessage` struct (src/unnamed/part_006 lines 61-68); absent
JSON fields keep Go zero values. -/
structure DiscoveryMessage where
  eventType : String
  message : String
  error : Bool
  protocolVersion : Int
  ports : List Port
  port : Option Port
deriving DecidableEq

namespace Client

/-- The interactions `Client.Run` has with its environment, by their
results: `runProcessErr` is the result of `runProcess` (spawning the child
and wiring its pipes), `sendErr` the result of `sendCommand` on the HELLO
line, `waitResult` the outcome of `waitMessage` (timeout and decoder errors
are `Except.error`). -/
structure RunEnv where
  runProcessErr : Option String
  sendErr : Option String
  waitResult : Except String DiscoveryMessage

/-- What a call of `Client.Run` did: the command lines written to the
child's stdin, whether `killProcess` ran on the started child, and the
returned error (`none` = nil). -/
structure RunOut where
  sentCommands : List String
  killed : Bool
  result : Option String
deriving DecidableEq

/-- The HELLO line sent by `Client.Run` (src/unnamed/part_006 line 276). -/
def helloLine (userAgent : String) : String :=
  "HELLO 1 \"arduino-cli " ++ userAgent ++ "\"\n"

/-- `Client.Run` (src/unnamed/part_006 lines 261-291): start the child,
send HELLO, validate the reply; the deferred function kills the child
whenever `Run` is about to return a non-nil error after `runProcess`
succeeded. -/
def run (env : RunEnv) (userAgent : String) : RunOut :=
  match env.runProcessErr with
  | some e => { sentCommands := [], killed := false, result := some e }
  | none =>
    match env.sendErr with
    | some e => { sentCommands := [helloLine userAgent], killed := true, result := some e }
    | none =>
      match env.waitResult with
      | Except.error e =>
        { sentCommands := [helloLine userAgent], killed := true,
          result := some ("calling HELLO: " ++ e) }
      | Except.ok msg =>
        if msg.eventType ≠ "hello" then
          { sentCommands := [helloLine userAgent], killed := true,
            result := some ("event out of sync, expected 'hello', received '"
              ++ msg.eventType ++ "'") }
        else if msg.error then
          { sentCommands := [helloLine userAgent], killed := true,
            result := some ("command failed: " ++ msg.message) }
        else if asciiUpper msg.message ≠ "OK" then
          { sentCommands := [helloLine userAgent], killed := true,
            result := some ("communication out of sync, expected 'OK', received '"
              ++ msg.message ++ "'") }
        else if msg.protocolVersion > 1 then
          { sentCommands := [helloLine userAgent], killed := true,
            result := some ("protocol version not supported: requested 1, got "
              ++ toString msg.protocolVersion) }
        else
          { sentCommands := [helloLine userAgent], killed := false, result := none }

/-- The primitive steps of `Client.jsonDecodeLoop`'s port-event handling,
in program order. -/
inductive DecodeAction where
  | lockMutex
  | unlockMutex
  | sendEvent (eventType : String)
deriving DecidableEq

/-- The add/remove branch of `Client.jsonDecodeLoop` (src/unnamed/part_006
lines 150-169) as the sequence of mutex and channel operations it performs
for one decoded event with a non-nil port: acquire `statusMutex`, send on
the event channel if one is installed, release `statusMutex`. -/
def jsonDecodeLoopPortEvent (eventChanActive : Bool) (eventType : String) :
    List DecodeAction :=
  [DecodeAction.lockMutex]
    ++ (if eventChanActive then [DecodeAction.sendEvent eventType] else [])
    ++ [DecodeAction.unlockMutex]

/-- The number of unmatched `lockMutex` actions strictly before index `i`:
the action at index `i` executes with the mutex held iff this is
positive. -/
def mutexDepthAt (acts : List DecodeAction) (i : Nat) : Nat :=
  (acts.take i).foldl
    (fun d a =>
      match a with
      | DecodeAction.lockMutex => d + 1
      | DecodeAction.unlockMutex => d - 1
      | DecodeAction.sendEvent _ => d) 0

/-- The event-channel slot of the client (`eventChan`, guarded by
`statusMutex`), with channels modelled by allocation ids; `nextChanId` is
the allocator for `make(chan ...)`. -/
structure SyncState where
  eventChan : Option Nat
  nextChanId : Nat
deriving DecidableEq

/-- Observable operations on event channels. -/
inductive ChanAction where
  | sendStopEvent (c : Nat)
  | closeChan (c : Nat)
  | createChan (c : Nat)
deriving DecidableEq

/-- `Client.stopSync` (src/unnamed/part_006 lines 333-339): when an event
channel is installed, push the synthetic stop event, close it and clear the
slot; otherwise do nothing. -/
def stopSyncStep (s : SyncState) : SyncState × List ChanAction :=
  match s.eventChan with
  | none => (s, [])
  | some c =>
    ({ s with eventChan := none },
     [ChanAction.sendStopEvent c, ChanAction.closeChan c])

/-- `Client.StartSync` (src/unnamed/part_006 lines 375-398): send
START_SYNC, validate the reply, then `stopSync` any previously installed
channel before creating and installing the new one.  `sendErr` and `wait`
are the results of `sendCommand` and `waitMessage`.  On success the new
channel id is returned together with the channel operations performed. -/
def startSyncStep (s : SyncState) (sendErr : Option String)
    (wait : Except String DiscoveryMessage) :
    Except String (SyncState × List ChanAction × Nat) :=
  match sendErr with
  | some e => Except.error e
  | none =>
    match wait with
    | Except.error e => Except.error ("calling START_SYNC: " ++ e)
    | Except.ok msg =>
      if msg.eventType ≠ "start_sync" then
        Except.error ("evemt out of sync, expected 'start_sync', received '"
          ++ msg.eventType ++ "'")
      else if msg.error then
        Except.error ("command failed: " ++ msg.message)
      else if asciiUpper msg.message ≠ "OK" then
        Except.error ("communication out of sync, expected 'OK', received '"
          ++ msg.message ++ "'")
      else
        let r := stopSyncStep s
        let c := r.1.nextChanId
        Except.ok ({ eventChan := some c, nextChanId := c + 1 },
                   r.2 ++ [ChanAction.createChan c], c)

end Client

/-! ## Apparatus for the stated properties -/

/-- Applying a sequence of polling-mode event callbacks to the session
state (the implementation invoking `eventCB` repeatedly after `START`). -/
def runEvents (s : ServerState) (evs : List (String × Port)) : ServerState :=
  evs.foldl (fun t e => Server.eventCallback t e.1 e.2) s

/-- The last callback invocation among `evs` whose port has key `k`. -/
def lastEventForKey (evs : List (String × Port)) (k : String) :
    Option (String × Port) :=
  evs.foldl (fun acc e => if portKey e.2 = k then some e else acc) none

/-- The keys of the cached-ports map. -/
def keysOf (m : List (String × Port)) : List String := m.map Prod.fst

/-- Every binding of the cached-ports map is keyed by its port's
`address|protocol`. -/
def wfKeyed (m : List (String × Port)) : Prop :=
  ∀ kv ∈ m, kv.1 = portKey kv.2

/-- The reply `eventType` the spec's sentence (amended by the pre-HELLO
guard) predicts for an input line: `command_error` when the guard rejects
the command or the command is unknown, otherwise the lowercase form of the
command. -/
def expectedReplyType (s : ServerState) (line : String) : String :=
  let cmd := Server.parsedCmd line
  if s.initialized = false ∧ cmd ≠ "HELLO" ∧ cmd ≠ "QUIT" then "command_error"
  else if cmd = "HELLO" then "hello"
  else if cmd = "START" then "start"
  else if cmd = "LIST" then "list"
  else if cmd = "START_SYNC" then "start_sync"
  else if cmd = "STOP" then "stop"
  else if cmd = "QUIT" then "quit"
  else "command_error"

/-- The command/phase combinations the state machine forbids, as
enumerated by the claim: any command other than HELLO or QUIT before
initialization, duplicate HELLO, START or START_SYNC while started or
syncStarted, LIST when not started or when syncStarted, STOP when neither
started nor syncStarted. -/
def forbiddenPhase (s : ServerState) (cmd : String) : Prop :=
  (s.initialized = false ∧ cmd ≠ "HELLO" ∧ cmd ≠ "QUIT")
  ∨ (cmd = "HELLO" ∧ s.initialized = true)
  ∨ ((cmd = "START" ∨ cmd = "START_SYNC")
      ∧ (s.started = true ∨ s.syncStarted = true))
  ∨ (cmd = "LIST" ∧ (s.started = false ∨ s.syncStarted = true))
  ∨ (cmd = "STOP" ∧ s.started = false ∧ s.syncStarted = false)

/-- A concrete pointer-level port used for instantiations. -/
def samplePortObj : PortObj :=
  { address := "1", addressLabel := "L", protocol := "dummy",
    protocolLabel := "D", properties := some 0, hardwareID := "" }

/-- A concrete properties heap used for instantiations. -/
def sampleHeap : PropHeap := [[("vid", "0x2341")]]

/-- A concrete port used for instantiations. -/
def samplePortA : Port :=
  { address := "1", addressLabel := "", protocol := "dummy",
    protocolLabel := "", properties := none, hardwareID := "" }

/-- A second concrete port used for instantiations. -/
def samplePortB : Port :=
  { address := "2", addressLabel := "", protocol := "dummy",
    protocolLabel := "", properties := none, hardwareID := "" }

end PluggableDiscovery

namespace PluggableDiscovery

/-! ## Theorems -/

/-- C4: when the server reads the command QUIT in any state, including
before HELLO, it calls `impl.Quit()`, emits the reply
`{eventType:"quit", message:"OK"}`, and `Run` returns nil. -/
theorem quit_any_state (impl : DiscoveryImpl) (s : ServerState) (line : String)
    (h : Server.parsedCmd line = "QUIT") :
    (Server.processLine impl s line).sent = [messageOk "quit"]
    ∧ (Server.processLine impl s line).quitCalled = true
    ∧ (Server.processLine impl s line).terminated = true := by
  simp [Server.processLine, h]

theorem quit_any_state_witness :
    (Server.processLine DiscoveryImpl.ok ServerState.initial "quit").sent = [messageOk "quit"]
    ∧ (Server.processLine DiscoveryImpl.ok ServerState.initial "quit").quitCalled = true
    ∧ (Server.processLine DiscoveryImpl.ok ServerState.initial "quit").terminated = true :=
  quit_any_state DiscoveryImpl.ok ServerState.initial "quit" (by decide)

/-- C5: for every HELLO payload of the form `<digits> "<agent>"` whose
digits do not fit a 64-bit integer, the reply is the `hello` error
`"Invalid protocol version: <agent>"` (the agent string, not the numeric
token), and the session remains uninitialized. -/
theorem hello_version_overflow_reports_agent (impl : DiscoveryImpl)
    (s : ServerState) (payload ds ag : String)
    (h0 : s.initialized = false)
    (h1 : parseHello payload = some (ds, ag))
    (h2 : parseInt64 ds = none) :
    (Server.hello impl s payload).2
        = [messageError "hello" ("Invalid protocol version: " ++ ag)]
    ∧ (Server.hello impl s payload).1.initialized = false := by
  simp [Server.hello, h0, h1, h2]

theorem hello_version_overflow_reports_agent_witness :
    (Server.hello DiscoveryImpl.ok ServerState.initial
        "9223372036854775808 \"agent\"").2
      = [messageError "hello" ("Invalid protocol version: " ++ "agent")]
    ∧ (Server.hello DiscoveryImpl.ok ServerState.initial
        "9223372036854775808 \"agent\"").1.initialized = false :=
  hello_version_overflow_reports_agent DiscoveryImpl.ok ServerState.initial
    "9223372036854775808 \"agent\"" "9223372036854775808" "agent"
    rfl rfl rfl

/-- C8: for every message the server sends, `Server.send` panics exactly
when the write to the output stream returns an error or writes fewer bytes
than the serialized message including its trailing newline. -/
theorem send_short_write_panics (json : String) (n : Nat)
    (writeErr : Option String) (h : n ≤ (sendData json).length) :
    (sendOutcome (sendData json).length n writeErr = SendOutcome.panicked
      ↔ (writeErr.isSome = true ∨ n < (sendData json).length)) := by
  by_cases hw : writeErr.isSome <;> by_cases hn : n = (sendData json).length <;>
    simp [sendOutcome, hw, hn] <;> omega

theorem send_short_write_panics_witness :
    (sendOutcome (sendData "msg").length 1 none = SendOutcome.panicked
      ↔ ((none : Option String).isSome = true ∨ 1 < (sendData "msg").length)) :=
  send_short_write_panics "msg" 1 none (by decide)

/-- C7 counterexample: the claim says the decode loop sends a decoded
add/remove event on the active event channel without holding the status
mutex; in the code the send at index 1 of the trace happens at mutex depth
1, i.e. while the mutex is held. -/
theorem decode_send_holds_mutex_cex :
    (Client.jsonDecodeLoopPortEvent true "add").get? 1
        = some (Client.DecodeAction.sendEvent "add")
    ∧ Client.mutexDepthAt (Client.jsonDecodeLoopPortEvent true "add") 1 ≠ 0 := by
  decide

/-- C7 amended: in the client's decode loop, sending a decoded add/remove
event on the active event channel is performed while holding the status
mutex; the lock is taken, the channel slot read and the send performed
inside the same critical section. -/
theorem decode_send_under_mutex (active : Bool) (ev et : String) (i : Nat)
    (h : (Client.jsonDecodeLoopPortEvent active ev).get? i
        = some (Client.DecodeAction.sendEvent et)) :
    0 < Client.mutexDepthAt (Client.jsonDecodeLoopPortEvent active ev) i := by
  cases active with
  | false =>
    exfalso
    match i with
    | 0 => simp [Client.jsonDecodeLoopPortEvent, List.get?] at h
    | 1 => simp [Client.jsonDecodeLoopPortEvent, List.get?] at h
    | (n + 2) => simp [Client.jsonDecodeLoopPortEvent, List.get?] at h
  | true =>
    match i with
    | 0 => simp [Client.jsonDecodeLoopPortEvent, List.get?] at h
    | 1 =>
      simp [Client.jsonDecodeLoopPortEvent, Client.mutexDepthAt, List.take,
        List.foldl]
    | 2 => simp [Client.jsonDecodeLoopPortEvent, List.get?] at h
    | (n + 3) => simp [Client.jsonDecodeLoopPortEvent, List.get?] at h

theorem decode_send_under_mutex_witness :
    0 < Client.mutexDepthAt (Client.jsonDecodeLoopPortEvent true "add") 1 :=
  decode_send_under_mutex true "add" "add" 1 (by decide)

/-- C10: a successful client `StartSync` installs the newly created channel
after first performing `stopSync` on any previously installed one
(delivering the synthetic stop event and closing it), and `stopSync` is a
no-op when no event channel is installed. -/
theorem startSync_replaces_channel (s : Client.SyncState)
    (sendErr : Option String) (wait : Except String DiscoveryMessage)
    (s' : Client.SyncState) (acts : List Client.ChanAction) (c : Nat)
    (h : Client.startSyncStep s sendErr wait = Except.ok (s', acts, c)) :
    s'.eventChan = some c
    ∧ (∀ c0, s.eventChan = some c0 →
        acts = [Client.ChanAction.sendStopEvent c0, Client.ChanAction.closeChan c0,
                Client.ChanAction.createChan c])
    ∧ (s.eventChan = none → acts = [Client.ChanAction.createChan c])
    ∧ (∀ t : Client.SyncState, t.eventChan = none →
        Client.stopSyncStep t = (t, [])) := by
  cases sendErr with
  | some e => simp [Client.startSyncStep] at h
  | none =>
    cases wait with
    | error e => simp [Client.startSyncStep] at h
    | ok msg =>
      rw [Client.startSyncStep] at h
      split at h
      · exact absurd h (by simp)
      · split at h
        · exact absurd h (by simp)
        · split at h
          · exact absurd h (by simp)
          · rcases hc : s.eventChan with _ | c0
            · rw [Client.stopSyncStep] at h
              rw [hc] at h
              simp only [Except.ok.injEq, Prod.mk.injEq] at h
              obtain ⟨rfl, rfl, rfl⟩ := h
              refine ⟨rfl, ?_, ?_, fun t ht => by simp [Client.stopSyncStep, ht]⟩
              · intro c1 hc1
                cases hc1
              · intro _
                rfl
            · rw [Client.stopSyncStep] at h
              rw [hc] at h
              simp only [Except.ok.injEq, Prod.mk.injEq] at h
              obtain ⟨rfl, rfl, rfl⟩ := h
              refine ⟨rfl, ?_, ?_, fun t ht => by simp [Client.stopSyncStep, ht]⟩
              · intro c1 hc1
                cases hc1
                rfl
              · intro hn
                cases hn

/-- C6: once the child process is started, `Client.Run` sends exactly the
line `HELLO 1 "arduino-cli <userAgent>"\n`; it returns nil exactly when
sending succeeded, a reply arrived, and the reply has eventType `hello`,
no error flag, message `OK` case-insensitively, and protocolVersion at
most 1; and the child is killed exactly when `Run` fails. -/
theorem client_run_hello (env : Client.RunEnv) (ua : String)
    (h : env.runProcessErr = none) :
    (Client.run env ua).sentCommands = [Client.helloLine ua]
    ∧ (Client.run env ua).killed = (Client.run env ua).result.isSome
    ∧ ((Client.run env ua).result = none ↔
        (env.sendErr = none ∧ ∃ msg, env.waitResult = Except.ok msg
          ∧ msg.eventType = "hello" ∧ msg.error = false
          ∧ asciiUpper msg.message = "OK" ∧ msg.protocolVersion ≤ 1)) := by
  obtain ⟨rpe, se, wr⟩ := env
  cases h
  cases se with
  | some e => simp [Client.run]
  | none =>
    cases wr with
    | error e => simp [Client.run]
    | ok msg =>
      by_cases h1 : msg.eventType = "hello" <;>
        by_cases h2 : msg.error = true <;>
        by_cases h3 : asciiUpper msg.message = "OK" <;>
        by_cases h4 : (1 : Int) < msg.protocolVersion <;>
        simp [Client.run, h1, h2, h3, h4] <;>
        omega

theorem client_run_hello_witness :
    (Client.run
        { runProcessErr := none, sendErr := none,
          waitResult := Except.ok
            { eventType := "hello", message := "OK", error := false,
              protocolVersion := 1, ports := [], port := none } }
        "test/1.0").sentCommands = [Client.helloLine "test/1.0"]
    ∧ (Client.run
        { runProcessErr := none, sendErr := none,
          waitResult := Except.ok
            { eventType := "hello", message := "OK", error := false,
              protocolVersion := 1, ports := [], port := none } }
        "test/1.0").killed
      = (Client.run
          { runProcessErr := none, sendErr := none,
            waitResult := Except.ok
              { eventType := "hello", message := "OK", error := false,
                protocolVersion := 1, ports := [], port := none } }
          "test/1.0").result.isSome
    ∧ ((Client.run
          { runProcessErr := none, sendErr := none,
            waitResult := Except.ok
              { eventType := "hello", message := "OK", error := false,
                protocolVersion := 1, ports := [], port := none } }
          "test/1.0").result = none ↔
        ((none : Option String) = none ∧ ∃ msg,
          (Except.ok
              { eventType := "hello", message := "OK", error := false,
                protocolVersion := 1, ports := [], port := none }
            : Except String DiscoveryMessage) = Except.ok msg
          ∧ msg.eventType = "hello" ∧ msg.error = false
          ∧ asciiUpper msg.message = "OK" ∧ msg.protocolVersion ≤ 1)) :=
  client_run_hello
    { runProcessErr := none, sendErr := none,
      waitResult := Except.ok
        { eventType := "hello", message := "OK", error := false,
          protocolVersion := 1, ports := [], port := none } }
    "test/1.0" rfl

theorem heapGet_concat_length (h : PropHeap) (m : List (String × String)) :
    heapGet (h ++ [m]) h.length = m := by
  simp [heapGet, List.getD_eq_getElem?_getD, List.getElem?_concat_length]

theorem heapGet_append_lt (h : PropHeap) (m : List (String × String))
    (r : Nat) (hr : r < h.length) :
    heapGet (h ++ [m]) r = heapGet h r := by
  simp [heapGet, List.getD_eq_getElem?_getD, List.getElem?_append_left hr]

theorem heapGet_set_ne (h : PropHeap) (i j : Nat) (m : List (String × String))
    (hij : i ≠ j) :
    heapGet (h.set i m) j = heapGet h j := by
  simp [heapGet, List.getD_eq_getElem?_getD, List.getElem?_set_ne hij]

/-- C9: `Port.Equals` holds exactly when address and protocol agree, all
other fields being ignored; and `Port.Clone` of a non-nil port returns a
port with equal fields whose properties map is an independent copy:
mutating the clone's properties does not affect the original. -/
theorem port_equals_and_clone (p o : PortObj) (hp : PropHeap) (r : Nat)
    (h1 : p.properties = some r) (h2 : r < hp.length) :
    (PortObj.equals p o = true ↔ (p.address = o.address ∧ p.protocol = o.protocol))
    ∧ (∃ q, (clonePort hp (some p)).2 = some q
        ∧ q.address = p.address ∧ q.addressLabel = p.addressLabel
        ∧ q.protocol = p.protocol ∧ q.protocolLabel = p.protocolLabel
        ∧ q.hardwareID = p.hardwareID
        ∧ readProps (clonePort hp (some p)).1 q = readProps hp p
        ∧ q.properties ≠ p.properties
        ∧ ∀ k v rq, q.properties = some rq →
            readProps (heapSet (clonePort hp (some p)).1 rq k v) p
              = readProps hp p) := by
  have hclone : clonePort hp (some p)
      = (hp ++ [heapGet hp r], some { p with properties := some hp.length }) := by
    simp [clonePort, h1, heapAlloc]
  constructor
  · simp [PortObj.equals, Bool.and_eq_true, beq_iff_eq]
  · refine ⟨{ p with properties := some hp.length }, ?_, rfl, rfl, rfl, rfl, rfl,
      ?_, ?_, ?_⟩
    · rw [hclone]
    · rw [hclone]
      simp [readProps, h1, heapGet_concat_length, heapGet_append_lt hp _ r h2]
    · rw [h1]
      simp
      omega
    · intro k v rq hq
      simp only [Option.some.injEq] at hq
      subst hq
      rw [hclone]
      simp only [readProps, h1, Option.map_some', heapSet]
      rw [heapGet_set_ne _ _ _ _ (by omega)]
      rw [heapGet_append_lt hp _ r h2]

theorem port_equals_and_clone_witness :
    (PortObj.equals samplePortObj samplePortObj = true
      ↔ (samplePortObj.address = samplePortObj.address
        ∧ samplePortObj.protocol = samplePortObj.protocol))
    ∧ (∃ q, (clonePort sampleHeap (some samplePortObj)).2 = some q
        ∧ q.address = samplePortObj.address
        ∧ q.addressLabel = samplePortObj.addressLabel
        ∧ q.protocol = samplePortObj.protocol
        ∧ q.protocolLabel = samplePortObj.protocolLabel
        ∧ q.hardwareID = samplePortObj.hardwareID
        ∧ readProps (clonePort sampleHeap (some samplePortObj)).1 q
          = readProps sampleHeap samplePortObj
        ∧ q.properties ≠ samplePortObj.properties
        ∧ ∀ k v rq, q.properties = some rq →
            readProps (heapSet (clonePort sampleHeap (some samplePortObj)).1 rq k v)
                samplePortObj
              = readProps sampleHeap samplePortObj) :=
  port_equals_and_clone samplePortObj samplePortObj sampleHeap 0 rfl (by decide)

theorem startSync_replaces_channel_witness :
    ({ eventChan := some 1, nextChanId := 2 } : Client.SyncState).eventChan = some 1
    ∧ (∀ c0, ({ eventChan := some 0, nextChanId := 1 } : Client.SyncState).eventChan
          = some c0 →
        [Client.ChanAction.sendStopEvent 0, Client.ChanAction.closeChan 0,
         Client.ChanAction.createChan 1]
          = [Client.ChanAction.sendStopEvent c0, Client.ChanAction.closeChan c0,
             Client.ChanAction.createChan 1])
    ∧ (({ eventChan := some 0, nextChanId := 1 } : Client.SyncState).eventChan = none →
        [Client.ChanAction.sendStopEvent 0, Client.ChanAction.closeChan 0,
         Client.ChanAction.createChan 1]
          = [Client.ChanAction.createChan 1])
    ∧ (∀ t : Client.SyncState, t.eventChan = none →
        Client.stopSyncStep t = (t, [])) :=
  startSync_replaces_channel { eventChan := some 0, nextChanId := 1 } none
    (Except.ok { eventType := "start_sync", message := "OK", error := false,
                 protocolVersion := 0, ports := [], port := none })
    { eventChan := some 1, nextChanId := 2 }
    [Client.ChanAction.sendStopEvent 0, Client.ChanAction.closeChan 0,
     Client.ChanAction.createChan 1] 1 rfl

theorem mapLookup_insert (m : List (String × Port)) (k : String) (v : Port)
    (j : String) :
    mapLookup (mapInsert m k v) j = if j = k then some v else mapLookup m j := by
  induction m with
  | nil =>
    simp only [mapInsert, mapLookup]
    by_cases hj : j = k
    · subst hj; simp
    · rw [if_neg (fun h => hj h.symm), if_neg hj]
  | cons kv t ih =>
    obtain ⟨a, b⟩ := kv
    simp only [mapInsert, mapLookup]
    by_cases hak : a = k <;> by_cases haj : a = j <;> by_cases hjk : j = k <;>
      simp_all [mapLookup]

theorem mapLookup_erase (m : List (String × Port)) (k j : String) :
    mapLookup (mapErase m k) j = if j = k then none else mapLookup m j := by
  induction m with
  | nil => simp [mapErase, mapLookup]
  | cons kv t ih =>
    obtain ⟨a, b⟩ := kv
    simp only [mapErase, mapLookup]
    by_cases hak : a = k <;> by_cases haj : a = j <;> by_cases hjk : j = k <;>
      simp_all [mapLookup]

theorem mapLookup_evApply (m : List (String × Port)) (ev : String) (p : Port)
    (j : String) (hev : ev = "add" ∨ ev = "remove") :
    mapLookup (Server.evApply m ev p) j
      = if j = portKey p then (if ev = "add" then some p else none)
        else mapLookup m j := by
  rcases hev with h | h <;> subst h <;>
    simp [Server.evApply, portKey, mapLookup_insert, mapLookup_erase]

theorem foldl_lastEvent_acc (k : String) (evs : List (String × Port)) :
    ∀ a : Option (String × Port),
      evs.foldl (fun acc e => if portKey e.2 = k then some e else acc) a
        = (lastEventForKey evs k).elim a some := by
  induction evs with
  | nil => intro a; simp [lastEventForKey]
  | cons e evs ih =>
    intro a
    rw [List.foldl_cons, ih]
    conv_rhs => rw [lastEventForKey, List.foldl_cons, ih]
    rcases hl : lastEventForKey evs k with _ | x
    · by_cases hc : portKey e.2 = k <;> simp [hc]
    · simp

theorem lastEventForKey_cons (e : String × Port) (evs : List (String × Port))
    (k : String) :
    lastEventForKey (e :: evs) k
      = (lastEventForKey evs k).elim
          (if portKey e.2 = k then some e else none) some := by
  rw [lastEventForKey, List.foldl_cons]
  exact foldl_lastEvent_acc k evs _

theorem mapLookup_foldl_ev (j : String) :
    ∀ (evs : List (String × Port)),
      (∀ e ∈ evs, e.1 = "add" ∨ e.1 = "remove") →
      ∀ m, mapLookup (evs.foldl (fun t e => Server.evApply t e.1 e.2) m) j
        = (lastEventForKey evs j).elim (mapLookup m j)
            (fun e => if e.1 = "add" then some e.2 else none)
  | [], _, m => by simp [lastEventForKey]
  | e :: evs, hev, m => by
    have he := hev e (List.mem_cons_self e evs)
    have htl : ∀ x ∈ evs, x.1 = "add" ∨ x.1 = "remove" :=
      fun x hx => hev x (List.mem_cons_of_mem e hx)
    rw [List.foldl_cons,
      mapLookup_foldl_ev j evs htl (Server.evApply m e.1 e.2),
      mapLookup_evApply m e.1 e.2 j he, lastEventForKey_cons]
    rcases hl : lastEventForKey evs j with _ | x
    · by_cases hc : portKey e.2 = j
      · simp [hc]
      · simp [hc, Ne.symm hc]
    · simp

theorem keysOf_insert (m : List (String × Port)) (k : String) (v : Port) :
    keysOf (mapInsert m k v)
      = if k ∈ keysOf m then keysOf m else keysOf m ++ [k] := by
  induction m with
  | nil => simp [mapInsert, keysOf]
  | cons kv t ih =>
    by_cases hk : kv.1 = k
    · simp [mapInsert, hk, keysOf]
    · by_cases hm : k ∈ keysOf t <;>
        simp_all [mapInsert, keysOf, Ne.symm hk]

theorem keysOf_erase (m : List (String × Port)) (k : String) :
    keysOf (mapErase m k) = (keysOf m).filter (fun x => x ≠ k) := by
  induction m with
  | nil => rfl
  | cons kv t ih =>
    by_cases hk : kv.1 = k <;> simp_all [mapErase, keysOf, List.filter_cons]

theorem keysOf_nodup_evApply (m : List (String × Port)) (ev : String) (p : Port)
    (h : (keysOf m).Nodup) : (keysOf (Server.evApply m ev p)).Nodup := by
  have hins : ∀ k v, (keysOf (mapInsert m k v)).Nodup := by
    intro k v
    rw [keysOf_insert]
    by_cases hm : k ∈ keysOf m
    · simpa [hm] using h
    · simpa [hm, List.nodup_append, hm] using h
  by_cases ha : ev = "add" <;> by_cases hr : ev = "remove" <;>
    simp only [Server.evApply, ha, hr, if_true, if_false, reduceIte] <;>
    first
      | exact h
      | exact hins _ p
      | (rw [keysOf_erase]; exact (List.Nodup.filter _ h))
      | (rw [keysOf_erase]; exact List.Nodup.filter _ (hins _ p))

theorem mem_mapInsert (m : List (String × Port)) (k : String) (v : Port)
    (kv : String × Port) (h : kv ∈ mapInsert m k v) : kv = (k, v) ∨ kv ∈ m := by
  induction m with
  | nil => simpa [mapInsert] using h
  | cons kv' t ih =>
    by_cases hk : kv'.1 = k <;> simp_all [mapInsert, hk] <;> tauto

theorem mem_mapErase (m : List (String × Port)) (k : String)
    (kv : String × Port) (h : kv ∈ mapErase m k) : kv ∈ m := by
  induction m with
  | nil => simpa [mapErase] using h
  | cons kv' t ih =>
    by_cases hk : kv'.1 = k <;> simp_all [mapErase, hk] <;> tauto

theorem wfKeyed_evApply (m : List (String × Port)) (ev : String) (p : Port)
    (h : wfKeyed m) : wfKeyed (Server.evApply m ev p) := by
  have hid : p.address ++ "|" ++ p.protocol = portKey p := rfl
  have hins : wfKeyed (mapInsert m (portKey p) p) := by
    intro kv hkv
    rcases mem_mapInsert m (portKey p) p kv hkv with hkv' | hkv'
    · rw [hkv']
    · exact h kv hkv'
  intro kv hkv
  by_cases ha : ev = "add" <;> by_cases hr : ev = "remove" <;>
    simp only [Server.evApply, ha, hr, if_true, if_false, reduceIte, hid] at hkv <;>
    first
      | exact h kv hkv
      | exact hins kv hkv
      | exact h kv (mem_mapErase _ _ _ hkv)
      | exact hins kv (mem_mapErase _ _ _ hkv)

theorem keysOf_nodup_foldl :
    ∀ (evs : List (String × Port)) (m : List (String × Port)),
      (keysOf m).Nodup →
      (keysOf (evs.foldl (fun t e => Server.evApply t e.1 e.2) m)).Nodup
  | [], _, h => h
  | e :: evs, m, h => by
    rw [List.foldl_cons]
    exact keysOf_nodup_foldl evs _ (keysOf_nodup_evApply m e.1 e.2 h)

theorem wfKeyed_foldl :
    ∀ (evs : List (String × Port)) (m : List (String × Port)),
      wfKeyed m → wfKeyed (evs.foldl (fun t e => Server.evApply t e.1 e.2) m)
  | [], _, h => h
  | e :: evs, m, h => by
    rw [List.foldl_cons]
    exact wfKeyed_foldl evs _ (wfKeyed_evApply m e.1 e.2 h)

theorem mapLookup_eq_some_of_mem (m : List (String × Port)) (k : String)
    (p : Port) (hnd : (keysOf m).Nodup) (hmem : (k, p) ∈ m) :
    mapLookup m k = some p := by
  induction m with
  | nil => cases hmem
  | cons kv t ih =>
    have hnd' : kv.1 ∉ keysOf t ∧ (keysOf t).Nodup := by
      simpa [keysOf] using hnd
    rcases List.mem_cons.mp hmem with h | h
    · rw [← h]
      simp [mapLookup]
    · have hne : kv.1 ≠ k := by
        intro he
        exact hnd'.1 (he ▸ List.mem_map_of_mem Prod.fst h)
      simp only [mapLookup, hne, if_false, reduceIte]
      exact ih hnd'.2 h

theorem mem_of_mapLookup_eq_some (m : List (String × Port)) (k : String)
    (p : Port) (h : mapLookup m k = some p) : (k, p) ∈ m := by
  induction m with
  | nil => simp [mapLookup] at h
  | cons kv t ih =>
    by_cases hk : kv.1 = k
    · simp only [mapLookup, hk, if_true, reduceIte, Option.some.injEq] at h
      have hkv : kv = (k, p) := Prod.ext hk h
      rw [← hkv]
      exact List.mem_cons_self kv t
    · simp only [mapLookup, hk, if_false, reduceIte] at h
      right
      exact ih h

theorem mem_mapValues_iff (m : List (String × Port)) (p : Port)
    (hnd : (keysOf m).Nodup) (hwf : wfKeyed m) :
    p ∈ mapValues m ↔ mapLookup m (portKey p) = some p := by
  constructor
  · intro hp
    obtain ⟨kv, hkv, hsnd⟩ := List.mem_map.mp hp
    have hk : kv = (portKey p, p) := by
      have h1 : kv.1 = portKey p := by rw [hwf kv hkv, hsnd]
      exact Prod.ext h1 hsnd
    exact mapLookup_eq_some_of_mem m _ p hnd (hk ▸ hkv)
  · intro h
    exact List.mem_map.mpr ⟨(portKey p, p), mem_of_mapLookup_eq_some _ _ _ h, rfl⟩

theorem runEvents_fields :
    ∀ (evs : List (String × Port)) (s : ServerState),
      (runEvents s evs).userAgent = s.userAgent
      ∧ (runEvents s evs).reqProtocolVersion = s.reqProtocolVersion
      ∧ (runEvents s evs).initialized = s.initialized
      ∧ (runEvents s evs).started = s.started
      ∧ (runEvents s evs).syncStarted = s.syncStarted
      ∧ (runEvents s evs).cachedErr = s.cachedErr
      ∧ (runEvents s evs).cachedPorts
          = evs.foldl (fun t e => Server.evApply t e.1 e.2) s.cachedPorts
  | [], s => by simp [runEvents]
  | e :: evs, s => by
    have ih := runEvents_fields evs (Server.eventCallback s e.1 e.2)
    simp only [runEvents, List.foldl_cons] at ih ⊢
    simpa [Server.eventCallback] using ih

/-- C1: in polling mode — after a successful START, which resets
`cachedPorts` and `cachedErr` before handing the polling-mode callbacks to
`impl.StartSync` — for every finite sequence of add/remove callback
invocations, the next LIST reply contains exactly the set of ports whose
`address|protocol` key last saw an `add` of that port with no later
`remove` of that key. -/
theorem polling_list_reflects_events (impl : DiscoveryImpl) (s : ServerState)
    (evs : List (String × Port))
    (h1 : s.initialized = true) (h2 : s.started = false)
    (h3 : s.syncStarted = false) (h4 : impl.startSyncErr = none)
    (hev : ∀ e ∈ evs, e.1 = "add" ∨ e.1 = "remove") :
    ∃ ports : List Port,
      (Server.processLine impl
          (runEvents (Server.processLine impl s "START").state evs) "LIST").sent
        = [{ eventType := "list", message := "", error := false,
             protocolVersion := 0, port := none, ports := some ports }]
      ∧ ∀ p : Port, p ∈ ports ↔
          lastEventForKey evs (portKey p) = some ("add", p) := by
  have hcmdS : Server.parsedCmd "START" = "START" := rfl
  have hcmdL : Server.parsedCmd "LIST" = "LIST" := rfl
  have hstart : (Server.processLine impl s "START").state
      = { s with cachedPorts := [], cachedErr := "", started := true } := by
    simp [Server.processLine, hcmdS, h1, h2, h3, Server.start, h4]
  set s2 := runEvents (Server.processLine impl s "START").state evs with hs2def
  have hfields := runEvents_fields evs (Server.processLine impl s "START").state
  have hin : s2.initialized = true := by
    rw [hs2def, hfields.2.2.1, hstart]; exact h1
  have hst : s2.started = true := by
    rw [hs2def, hfields.2.2.2.1, hstart]
  have hsy : s2.syncStarted = false := by
    rw [hs2def, hfields.2.2.2.2.1, hstart]; exact h3
  have hce : s2.cachedErr = "" := by
    rw [hs2def, hfields.2.2.2.2.2.1, hstart]
  have hcp : s2.cachedPorts
      = evs.foldl (fun t e => Server.evApply t e.1 e.2) [] := by
    rw [hs2def, hfields.2.2.2.2.2.2, hstart]
  have hlist : (Server.processLine impl s2 "LIST").sent
      = [{ eventType := "list", message := "", error := false,
           protocolVersion := 0, port := none,
           ports := some (mapValues s2.cachedPorts) }] := by
    simp [Server.processLine, hcmdL, Server.list, hin, hst, hsy, hce]
  refine ⟨mapValues s2.cachedPorts, hlist, ?_⟩
  intro p
  have hwf0 : wfKeyed ([] : List (String × Port)) :=
    fun kv h => absurd h (List.not_mem_nil kv)
  have hnd2 : (keysOf s2.cachedPorts).Nodup := by
    rw [hcp]
    exact keysOf_nodup_foldl evs [] (by simp [keysOf])
  have hwf2 : wfKeyed s2.cachedPorts := by
    rw [hcp]
    exact wfKeyed_foldl evs [] hwf0
  rw [mem_mapValues_iff _ _ hnd2 hwf2, hcp,
    mapLookup_foldl_ev (portKey p) evs hev []]
  rcases hl : lastEventForKey evs (portKey p) with _ | e
  · simp [mapLookup]
  · by_cases ha : e.1 = "add" <;> simp [ha, Prod.ext_iff]

theorem polling_list_reflects_events_witness :
    ∃ ports : List Port,
      (Server.processLine DiscoveryImpl.ok
          (runEvents (Server.processLine DiscoveryImpl.ok
              { ServerState.initial with initialized := true } "START").state
            [("add", samplePortA), ("add", samplePortB), ("remove", samplePortA)])
          "LIST").sent
        = [{ eventType := "list", message := "", error := false,
             protocolVersion := 0, port := none, ports := some ports }]
      ∧ ∀ p : Port, p ∈ ports ↔
          lastEventForKey [("add", samplePortA), ("add", samplePortB),
            ("remove", samplePortA)] (portKey p) = some ("add", p) :=
  polling_list_reflects_events DiscoveryImpl.ok
    { ServerState.initial with initialized := true }
    [("add", samplePortA), ("add", samplePortB), ("remove", samplePortA)]
    rfl rfl rfl rfl (by decide)

theorem hello_eventTypes (impl : DiscoveryImpl) (s : ServerState) (c : String) :
    (Server.hello impl s c).2.map Message.eventType = ["hello"] := by
  unfold Server.hello
  split
  · simp [messageError]
  · split
    · simp [messageError]
    · split
      · simp [messageError]
      · split
        · simp [messageError]
        · simp

theorem start_eventTypes (impl : DiscoveryImpl) (s : ServerState) :
    (Server.start impl s).2.map Message.eventType = ["start"] := by
  unfold Server.start
  split
  · simp [messageError]
  · split
    · simp [messageError]
    · split
      · simp [messageError]
      · simp [messageOk]

theorem list_eventTypes (s : ServerState) :
    (Server.list s).2.map Message.eventType = ["list"] := by
  unfold Server.list
  split
  · simp [messageError]
  · split
    · simp [messageError]
    · split
      · simp [messageError]
      · simp

theorem startSync_eventTypes (impl : DiscoveryImpl) (s : ServerState) :
    (Server.startSync impl s).2.map Message.eventType = ["start_sync"] := by
  unfold Server.startSync
  split
  · simp [messageError]
  · split
    · simp [messageError]
    · split
      · simp [messageError]
      · simp [messageOk]

theorem stop_eventTypes (impl : DiscoveryImpl) (s : ServerState) :
    (Server.stop impl s).2.map Message.eventType = ["stop"] := by
  unfold Server.stop
  split
  · simp [messageError]
  · split
    · simp [messageError]
    · simp [messageOk]

/-- C2 counterexample: before HELLO, the known command LIST is processed by
the Run loop and answered with a single reply whose eventType is
`command_error`, not the lowercase form `list` of the command. -/
theorem reply_type_lowercase_cex :
    (Server.processLine DiscoveryImpl.ok ServerState.initial "LIST").sent
      = [messageError "command_error" "First command must be HELLO, but got 'LIST'"]
    ∧ Server.parsedCmd "LIST" = "LIST"
    ∧ (messageError "command_error"
        "First command must be HELLO, but got 'LIST'").eventType ≠ "list" := by
  refine ⟨by decide, rfl, by decide⟩

/-- C2 amended: for every input line processed by the Run loop, the server
emits exactly one reply; its eventType is the lowercase form of the command
when the command is known and the pre-HELLO guard admits it, and
`command_error` when the command is unknown or rejected by the guard. -/
theorem reply_type_per_phase (impl : DiscoveryImpl) (s : ServerState)
    (line : String) :
    (Server.processLine impl s line).sent.map Message.eventType
      = [expectedReplyType s line] := by
  by_cases hg : s.initialized = false ∧ Server.parsedCmd line ≠ "HELLO"
      ∧ Server.parsedCmd line ≠ "QUIT"
  · simp [Server.processLine, expectedReplyType, hg, messageError]
  · by_cases hH : Server.parsedCmd line = "HELLO"
    · simpa [Server.processLine, expectedReplyType, hg, hH] using
        hello_eventTypes impl s (Server.helloPayload line)
    · by_cases hS : Server.parsedCmd line = "START"
      · have hi : s.initialized = true := by
          rcases Bool.eq_false_or_eq_true s.initialized with ht | hf
          · exact ht
          · exact absurd ⟨hf, by simp [hS], by simp [hS]⟩ hg
        simpa [Server.processLine, expectedReplyType, hH, hS, hi] using
          start_eventTypes impl s
      · by_cases hL : Server.parsedCmd line = "LIST"
        · have hi : s.initialized = true := by
            rcases Bool.eq_false_or_eq_true s.initialized with ht | hf
            · exact ht
            · exact absurd ⟨hf, by simp [hL], by simp [hL]⟩ hg
          simpa [Server.processLine, expectedReplyType, hH, hS, hL, hi] using
            list_eventTypes s
        · by_cases hY : Server.parsedCmd line = "START_SYNC"
          · have hi : s.initialized = true := by
              rcases Bool.eq_false_or_eq_true s.initialized with ht | hf
              · exact ht
              · exact absurd ⟨hf, by simp [hY], by simp [hY]⟩ hg
            simpa [Server.processLine, expectedReplyType, hH, hS, hL, hY, hi]
              using startSync_eventTypes impl s
          · by_cases hP : Server.parsedCmd line = "STOP"
            · have hi : s.initialized = true := by
                rcases Bool.eq_false_or_eq_true s.initialized with ht | hf
                · exact ht
                · exact absurd ⟨hf, by simp [hP], by simp [hP]⟩ hg
              simpa [Server.processLine, expectedReplyType, hH, hS, hL, hY, hP,
                hi] using stop_eventTypes impl s
            · by_cases hQ : Server.parsedCmd line = "QUIT"
              · simp [Server.processLine, expectedReplyType, hH, hS, hL, hY,
                  hP, hQ, messageOk]
              · by_cases hi : s.initialized = false <;>
                  simp [Server.processLine, expectedReplyType, hg, hH, hS, hL,
                    hY, hP, hQ, hi, messageError]

/-- C3: for every command that arrives in a phase where the state machine
forbids it (any command other than HELLO or QUIT before initialization,
duplicate HELLO, START or START_SYNC while started or syncStarted, LIST
when not started or when syncStarted, STOP when neither started nor
syncStarted), the server replies with a single error:true message and the
session state is unchanged. -/
theorem forbidden_phase_frame (impl : DiscoveryImpl) (s : ServerState)
    (line : String) (h : forbiddenPhase s (Server.parsedCmd line)) :
    (Server.processLine impl s line).state = s
    ∧ ∃ m, (Server.processLine impl s line).sent = [m] ∧ m.error = true := by
  rcases h with ⟨hi, hH, hQ⟩ | ⟨hc, hi⟩ | ⟨hc, hflag⟩ | ⟨hc, hflag⟩ | ⟨hc, hs1, hs2⟩
  · simp [Server.processLine, hi, hH, hQ, messageError]
  · simp [Server.processLine, Server.hello, hc, hi, messageError]
  · rcases hc with hc | hc <;> rcases hflag with hf | hf <;>
      by_cases hi : s.initialized = false <;>
      by_cases h5 : s.started = true <;> by_cases h6 : s.syncStarted = true <;>
      simp_all [Server.processLine, Server.start, Server.startSync, messageError]
  · rcases hflag with hf | hf <;>
      by_cases hi : s.initialized = false <;>
      by_cases h5 : s.started = true <;> by_cases h6 : s.syncStarted = true <;>
      simp_all [Server.processLine, Server.list, messageError]
  · by_cases hi : s.initialized = false <;>
      simp_all [Server.processLine, Server.stop, messageError]

theorem forbidden_phase_frame_witness :
    (Server.processLine DiscoveryImpl.ok ServerState.initial "START").state
      = ServerState.initial
    ∧ ∃ m, (Server.processLine DiscoveryImpl.ok ServerState.initial "START").sent
        = [m] ∧ m.error = true :=
  forbidden_phase_frame DiscoveryImpl.ok ServerState.initial "START"
    (Or.inl ⟨rfl, by decide, by decide⟩)

end PluggableDiscovery
